import Mathlib

/-!
Verification of the `co2mon` / `zg-co2` sensor protocol core.

Shallow embedding of the Rust sources:
- `src/co2mon/src/lib.rs` (frame decryption, single read, combined read,
  open-time timeout validation),
- `src/zg-co2/src/lib.rs` (5-byte packet decoding),
- `src/co2mon/src/serde_types.rs` (serialization of a combined reading).

Bytes are modelled as `Nat` with explicit `% 256` wherever `u8` arithmetic
wraps; 16-bit values likewise stay below `2 ^ 16` on the `u8`-bounded domain.
`f32` scalar payloads carry exact rational values mirroring the arithmetic
expressions of the source (`value * 0.01`, `value * 0.0625 - 273.15`);
IEEE-754 rounding is not modelled.
-/

/-- An 8-byte frame (`[u8; 8]` in the source). -/
structure Frame where
  b0 : Nat
  b1 : Nat
  b2 : Nat
  b3 : Nat
  b4 : Nat
  b5 : Nat
  b6 : Nat
  b7 : Nat
deriving DecidableEq, Repr

/-- All eight bytes of the frame are in the `u8` range. -/
def Frame.Valid (f : Frame) : Prop :=
  f.b0 < 256 ∧ f.b1 < 256 ∧ f.b2 < 256 ∧ f.b3 < 256 ∧
  f.b4 < 256 ∧ f.b5 < 256 ∧ f.b6 < 256 ∧ f.b7 < 256

instance (f : Frame) : Decidable f.Valid := by
  unfold Frame.Valid; infer_instance

/-- A 5-byte cleartext packet (`[u8; 5]` in the source). -/
structure Packet where
  b0 : Nat
  b1 : Nat
  b2 : Nat
  b3 : Nat
  b4 : Nat
deriving DecidableEq, Repr

/-- All five bytes of the packet are in the `u8` range. -/
def Packet.Valid (p : Packet) : Prop :=
  p.b0 < 256 ∧ p.b1 < 256 ∧ p.b2 < 256 ∧ p.b3 < 256 ∧ p.b4 < 256

instance (p : Packet) : Decidable p.Valid := by
  unfold Packet.Valid; infer_instance

/-- `u8` wrapping subtraction: `a.wrapping_sub b` for `a, b < 256`. -/
def wsub8 (a b : Nat) : Nat := (a + 256 - b % 256) % 256

/-- `u8` wrapping addition: `a.wrapping_add b`. -/
def wadd8 (a b : Nat) : Nat := (a + b) % 256

/-- `u8` left shift (`a << n` on `u8`): shift then truncate to 8 bits. -/
def shl8 (a n : Nat) : Nat := (a <<< n) % 256

/-- The nibble-swapped mask byte `m << 4 | m >> 4` derived from one byte of
the magic string `Htemp99e` (`decrypt`, `src/co2mon/src/lib.rs` line 304). -/
def maskByte (m : Nat) : Nat := shl8 m 4 ||| m >>> 4

/-- `decrypt` from `src/co2mon/src/lib.rs` lines 283-308, translated
statement by statement: the four `swap` calls, the key XOR loop, the
in-place byte-wise rotation (each right-hand side reads pre-rotation
values, with `tmp` saving `data[7] << 5`), and the wrapping subtraction of
the nibble-swapped bytes of `b"Htemp99e"` (`0x48 0x74 0x65 0x6d 0x70 0x39
0x39 0x65`). -/
def decrypt (data key : Frame) : Frame :=
  let d := Frame.mk data.b2 data.b4 data.b0 data.b7 data.b1 data.b6 data.b5 data.b3
  let e := Frame.mk (d.b0 ^^^ key.b0) (d.b1 ^^^ key.b1) (d.b2 ^^^ key.b2)
    (d.b3 ^^^ key.b3) (d.b4 ^^^ key.b4) (d.b5 ^^^ key.b5) (d.b6 ^^^ key.b6)
    (d.b7 ^^^ key.b7)
  let tmp := shl8 e.b7 5
  let f := Frame.mk (tmp ||| e.b0 >>> 3) (shl8 e.b0 5 ||| e.b1 >>> 3)
    (shl8 e.b1 5 ||| e.b2 >>> 3) (shl8 e.b2 5 ||| e.b3 >>> 3)
    (shl8 e.b3 5 ||| e.b4 >>> 3) (shl8 e.b4 5 ||| e.b5 >>> 3)
    (shl8 e.b5 5 ||| e.b6 >>> 3) (shl8 e.b6 5 ||| e.b7 >>> 3)
  Frame.mk (wsub8 f.b0 (maskByte 0x48)) (wsub8 f.b1 (maskByte 0x74))
    (wsub8 f.b2 (maskByte 0x65)) (wsub8 f.b3 (maskByte 0x6d))
    (wsub8 f.b4 (maskByte 0x70)) (wsub8 f.b5 (maskByte 0x39))
    (wsub8 f.b6 (maskByte 0x39)) (wsub8 f.b7 (maskByte 0x65))

/-- Spec step 1: swap byte pairs (0,2), (1,4), (3,7), (5,6). -/
def swapSpec (f : Frame) : Frame :=
  Frame.mk f.b2 f.b4 f.b0 f.b7 f.b1 f.b6 f.b5 f.b3

/-- Spec step 2: XOR each byte with the corresponding key byte. -/
def xorSpec (f key : Frame) : Frame :=
  Frame.mk (f.b0 ^^^ key.b0) (f.b1 ^^^ key.b1) (f.b2 ^^^ key.b2)
    (f.b3 ^^^ key.b3) (f.b4 ^^^ key.b4) (f.b5 ^^^ key.b5) (f.b6 ^^^ key.b6)
    (f.b7 ^^^ key.b7)

/-- Spec step 3: whole-array right bit-rotation by 3, big-endian byte
order: `out[i] = (in[i-1] << 5) | (in[i] >> 3)` for `i` from 7 down to 1,
and `out[0] = (carry from byte 7 << 5) | (in[0] >> 3)` with the carry taken
from the original byte 7. -/
def rotSpec (f : Frame) : Frame :=
  Frame.mk (shl8 f.b7 5 ||| f.b0 >>> 3) (shl8 f.b0 5 ||| f.b1 >>> 3)
    (shl8 f.b1 5 ||| f.b2 >>> 3) (shl8 f.b2 5 ||| f.b3 >>> 3)
    (shl8 f.b3 5 ||| f.b4 >>> 3) (shl8 f.b4 5 ||| f.b5 >>> 3)
    (shl8 f.b5 5 ||| f.b6 >>> 3) (shl8 f.b6 5 ||| f.b7 >>> 3)

/-- Spec step 4: per-byte 8-bit wrapping subtraction of the nibble-swap of
the corresponding byte of the ASCII string `Htemp99e`. -/
def subSpec (f : Frame) : Frame :=
  Frame.mk (wsub8 f.b0 (maskByte 0x48)) (wsub8 f.b1 (maskByte 0x74))
    (wsub8 f.b2 (maskByte 0x65)) (wsub8 f.b3 (maskByte 0x6d))
    (wsub8 f.b4 (maskByte 0x70)) (wsub8 f.b5 (maskByte 0x39))
    (wsub8 f.b6 (maskByte 0x39)) (wsub8 f.b7 (maskByte 0x65))

/-- Inverse of the rotation step: each input byte is recovered from the low
5 bits of its own output byte and the high 3 bits of the next output byte
(indices wrapping around the 8-byte boundary). -/
def rotInv (f : Frame) : Frame :=
  Frame.mk (f.b0 % 32 * 8 + f.b1 / 32) (f.b1 % 32 * 8 + f.b2 / 32)
    (f.b2 % 32 * 8 + f.b3 / 32) (f.b3 % 32 * 8 + f.b4 / 32)
    (f.b4 % 32 * 8 + f.b5 / 32) (f.b5 % 32 * 8 + f.b6 / 32)
    (f.b6 % 32 * 8 + f.b7 / 32) (f.b7 % 32 * 8 + f.b0 / 32)

/-- Inverse of the mask-subtraction step: add the nibble-swapped `Htemp99e`
mask back, modulo 256. -/
def subInv (f : Frame) : Frame :=
  Frame.mk ((f.b0 + maskByte 0x48) % 256) ((f.b1 + maskByte 0x74) % 256)
    ((f.b2 + maskByte 0x65) % 256) ((f.b3 + maskByte 0x6d) % 256)
    ((f.b4 + maskByte 0x70) % 256) ((f.b5 + maskByte 0x39) % 256)
    ((f.b6 + maskByte 0x39) % 256) ((f.b7 + maskByte 0x65) % 256)

/-- The inverse transform of `decrypt`: undo the mask subtraction, the
rotation, the key XOR and the byte-pair swap, in reverse order. -/
def encrypt (g key : Frame) : Frame :=
  swapSpec (xorSpec (rotInv (subInv g)) key)

/-- The test vector frame from the source (`test_decrypt`). -/
def testFrame : Frame := ⟨0x6c, 0xa4, 0xa2, 0xb6, 0x5d, 0x9a, 0x9c, 0x08⟩

/-- The all-zero key. -/
def zeroKey : Frame := ⟨0, 0, 0, 0, 0, 0, 0, 0⟩

/-- A single sensor reading (`SingleReading`, `src/zg-co2/src/lib.rs` lines
69-85). `f32` payloads are carried as exact rationals. The `nonexhaustive`
constructor mirrors the hidden `__Nonexhaustive` hint variant. -/
inductive SingleReading where
  | humidity (val : ℚ)
  | temperature (val : ℚ)
  | co2 (val : Nat)
  | unknown (kind : Nat) (val : Nat)
  | nonexhaustive
deriving DecidableEq, Repr

/-- Decode errors (`Error`, `src/zg-co2/src/error.rs`). The hidden,
never-constructed `__Nonexhaustive` hint variant is omitted: `decode` only
ever produces the two real variants. -/
inductive ZgError where
  | invalidMessage
  | checksum
deriving DecidableEq, Repr

/-- The additive checksum `data[0].wrapping_add(data[1]).wrapping_add(data[2])`
from `decode` (`src/zg-co2/src/lib.rs` line 103). -/
def packetChecksum (p : Packet) : Nat := wadd8 (wadd8 p.b0 p.b1) p.b2

/-- `decode` from `src/zg-co2/src/lib.rs` lines 98-115. The `match` on the
`u8` literals `b'A' = 0x41`, `b'B' = 0x42`, `b'P' = 0x50` with a wildcard
arm is rendered as the equivalent chain of equality tests. -/
def decode (p : Packet) : Except ZgError SingleReading :=
  if p.b4 ≠ 0x0d then .error .invalidMessage
  else if packetChecksum p ≠ p.b3 then .error .checksum
  else
    let value := p.b1 <<< 8 ||| p.b2
    if p.b0 = 0x41 then .ok (.humidity ((value : ℚ) * 0.01))
    else if p.b0 = 0x42 then .ok (.temperature ((value : ℚ) * 0.0625 - 273.15))
    else if p.b0 = 0x50 then .ok (.co2 value)
    else .ok (.unknown p.b0 value)

/-- Spec-side: the 16-bit value `(p[1] as u16) << 8 | (p[2] as u16)`. -/
def specValue (p : Packet) : Nat := p.b1 <<< 8 ||| p.b2

/-- Spec-side: the reading the spec assigns to kind byte `k` and value `v`:
`0x41` is humidity `v * 0.01`, `0x42` is temperature `v * 0.0625 - 273.15`,
`0x50` is CO₂ `v` unscaled, anything else is unknown `(k, v)`. -/
def specReadingOfKind (k v : Nat) : SingleReading :=
  if k = 0x41 then .humidity ((v : ℚ) * 0.01)
  else if k = 0x42 then .temperature ((v : ℚ) * 0.0625 - 273.15)
  else if k = 0x50 then .co2 v
  else .unknown k v

/-- An opaque transport (HID) error, passed through unchanged. -/
structure HidErr where
  code : Nat
deriving DecidableEq, Repr

/-- Driver errors (`Error`, `src/co2mon/src/error.rs`), together with the
`Timeout` variant that `Sensor::read` constructs at
`src/co2mon/src/lib.rs` line 276 (the snapshot of `error.rs` predates that
variant, so the enum is modelled from both files). -/
inductive Co2monError where
  | hid (e : HidErr)
  | invalidMessage
  | checksum
  | invalidTimeout
  | timeout
deriving DecidableEq, Repr

/-- The `From<zg_co2::Error>` conversion (`src/co2mon/src/error.rs` lines
24-31). -/
def ofZgError : ZgError → Co2monError
  | .invalidMessage => .invalidMessage
  | .checksum => .checksum

/-- Outcome of one call to the transport's blocking read
(`device.read_timeout`): either `n` bytes read into an 8-byte buffer, or a
transport error. -/
inductive TransportRead where
  | ok (n : Nat) (data : Frame)
  | err (e : HidErr)
deriving DecidableEq, Repr

/-- The packet construction inside `read_one` (`src/co2mon/src/lib.rs`
lines 228-233): if the raw frame's byte 4 is `0x0D` the frame is used as
cleartext, otherwise it is decrypted with the session key; the packet is
`[data[0], data[1], data[2], data[3], data[4]]` of the chosen data. -/
def readOnePacket (data key : Frame) : Packet :=
  let d := if data.b4 = 0x0d then data else decrypt data key
  Packet.mk d.b0 d.b1 d.b2 d.b3 d.b4

/-- The packet as claim C5 words it: the first 4 decrypted-or-passthrough
bytes plus the RAW frame's byte at index 4. -/
def claimPacketC5 (data key : Frame) : Packet :=
  let d := if data.b4 = 0x0d then data else decrypt data key
  Packet.mk d.b0 d.b1 d.b2 d.b3 data.b4

/-- `Sensor::read_one` (`src/co2mon/src/lib.rs` lines 220-235) with the
transport call made explicit: a transport error propagates wrapped as
`Hid` (the `?` operator with `From<HidError>`), a read of other than 8
bytes fails with `InvalidMessage`, and otherwise the 5-byte packet is
decoded, decode errors being converted through `From<zg_co2::Error>`. -/
def read_one (tr : TransportRead) (key : Frame) : Except Co2monError SingleReading :=
  match tr with
  | .err e => .error (.hid e)
  | .ok n data =>
    if n ≠ 8 then .error .invalidMessage
    else
      match decode (readOnePacket data key) with
      | .error e => .error (ofZgError e)
      | .ok r => .ok r

/-- `std::time::Duration`: seconds and nanoseconds. -/
structure Duration where
  secs : Nat
  nanos : Nat
deriving DecidableEq, Repr

/-- `Duration::as_millis`. -/
def Duration.asMillis (d : Duration) : Nat :=
  d.secs * 1000 + d.nanos / 1000000

/-- The open-time timeout conversion in `Sensor::open`
(`src/co2mon/src/lib.rs` lines 187-191):
`options.timeout.map(Duration::as_millis).map_or(Ok(-1), i32::try_from)`
with the conversion error mapped to `InvalidTimeout`. `i32::try_from` on
the unsigned 128-bit millisecond count succeeds exactly when the count is
at most `i32::MAX = 2147483647`. -/
def openTimeoutMillis : Option Duration → Except Co2monError Int
  | none => .ok (-1)
  | some d =>
    if d.asMillis ≤ 2147483647 then .ok (d.asMillis : Int)
    else .error .invalidTimeout

/-- One scripted delivery of the transport inside the accumulation loop of
`Sensor::read`: the single reading produced by one successful `read_one`,
and the wall-clock milliseconds that iteration consumed. -/
structure ScriptItem where
  millis : Nat
  reading : SingleReading
deriving DecidableEq, Repr

/-- The readings carried by a script. -/
def readings (s : List ScriptItem) : List SingleReading :=
  s.map ScriptItem.reading

/-- The slot-update `match` of `Sensor::read` (`src/co2mon/src/lib.rs`
lines 263-267): a `Temperature` reading overwrites the temperature slot, a
`CO2` reading overwrites the CO₂ slot, any other kind leaves both slots
unchanged (the wildcard arm). -/
def updateSlots (r : SingleReading) (temperature : Option ℚ)
    (co2 : Option Nat) : Option ℚ × Option Nat :=
  match r with
  | .temperature v => (some v, co2)
  | .co2 v => (temperature, some v)
  | _ => (temperature, co2)

/-- The accumulation loop of `Sensor::read` (`src/co2mon/src/lib.rs` lines
257-280) over a scripted transport. Each iteration obtains one reading,
updates the slots via `updateSlots`, then returns the pair if both slots
are populated; otherwise, when the configured timeout is not `-1` and the
elapsed milliseconds exceed it, the loop fails with `Timeout`, else it
iterates. Exhaustion of the script is modelled as a transport error (the
real transport blocks instead). -/
def readAux (timeout : Int) (temperature : Option ℚ) (co2 : Option Nat)
    (elapsed : Nat) : List ScriptItem → Except Co2monError (ℚ × Nat)
  | [] => .error (.hid ⟨0⟩)
  | item :: rest =>
    let t := (updateSlots item.reading temperature co2).1
    let c := (updateSlots item.reading temperature co2).2
    match t, c with
    | some tv, some cv => .ok (tv, cv)
    | _, _ =>
      let elapsed2 := elapsed + item.millis
      if timeout ≠ -1 ∧ (elapsed2 : Int) > timeout then .error .timeout
      else readAux timeout t c elapsed2 rest

/-- `Sensor::read` over a scripted transport (named `read_combined` in the
spec; `read` clashes with a Lean core name): the loop starts with both
slots empty and zero elapsed time. -/
def readCombined (timeout : Int) (script : List ScriptItem) :
    Except Co2monError (ℚ × Nat) :=
  readAux timeout none none 0 script

/-- The trace of transport reads issued by the accumulation loop: for each
iteration actually executed, the pair of (elapsed milliseconds before the
read, timeout value passed to `device.read_timeout`). The source passes
the constant configured `self.timeout` at `src/co2mon/src/lib.rs` line
222; the control flow mirrors `readAux`. -/
def readTimeouts (timeout : Int) (temperature : Option ℚ) (co2 : Option Nat)
    (elapsed : Nat) : List ScriptItem → List (Nat × Int)
  | [] => []
  | item :: rest =>
    (elapsed, timeout) ::
      (let t := (updateSlots item.reading temperature co2).1
      let c := (updateSlots item.reading temperature co2).2
      match t, c with
      | some _, some _ => []
      | _, _ =>
        let elapsed2 := elapsed + item.millis
        if timeout ≠ -1 ∧ (elapsed2 : Int) > timeout then []
        else readTimeouts timeout t c elapsed2 rest)

/-- `Option` preference: the first operand if present, else the second. -/
def orD {α : Type} (a b : Option α) : Option α :=
  match a with
  | some x => some x
  | none => b

/-- The temperature payload of a reading, if it is one. -/
def tempOf : SingleReading → Option ℚ
  | .temperature v => some v
  | _ => none

/-- The CO₂ payload of a reading, if it is one. -/
def co2Of : SingleReading → Option Nat
  | .co2 v => some v
  | _ => none

/-- Spec-side: the value of the most recent `Temperature` reading of a
list, if any (later readings win). -/
def lastTemp : List SingleReading → Option ℚ
  | [] => none
  | r :: l => orD (lastTemp l) (tempOf r)

/-- Spec-side: the value of the most recent `CO2` reading of a list. -/
def lastCO2 : List SingleReading → Option Nat
  | [] => none
  | r :: l => orD (lastCO2 l) (co2Of r)

/-- Spec-side: both a `Temperature` and a `CO2` reading occur in the list. -/
def bothSeen (l : List SingleReading) : Prop :=
  (lastTemp l).isSome = true ∧ (lastCO2 l).isSome = true

instance (l : List SingleReading) : Decidable (bothSeen l) := by
  unfold bothSeen; infer_instance

/-- A combined reading (`Reading`, `src/co2mon/src/lib.rs` lines 79-83):
temperature in °C and CO₂ concentration in ppm. The `f32` field is carried
as an exact rational, the `u16` field as a `Nat`. -/
structure Reading where
  temperature : ℚ
  co2 : Nat
deriving DecidableEq, Repr

/-- A value of the serde data model, restricted to the shapes the
`Reading` (de)serializers exchange. -/
inductive SerdeValue where
  | f32 (v : ℚ)
  | u16 (n : Nat)
  | other (tag : Nat)
deriving DecidableEq, Repr

/-- `Serialize for Reading` (`src/co2mon/src/serde_types.rs` lines 8-18):
a 2-field struct, field `temperature` (an `f32`) then field `co2` (a
`u16`), in that order. -/
def serializeReading (r : Reading) : List (String × SerdeValue) :=
  [("temperature", .f32 r.temperature), ("co2", .u16 r.co2)]

/-- The field identifier states of the `Reading` deserializer. -/
inductive ReadingField where
  | temperature
  | co2
  | ignore
deriving DecidableEq, Repr

/-- `FieldVisitor::visit_str` (`src/co2mon/src/serde_types.rs` lines
50-59): the two known field names, everything else ignored. -/
def readingFieldOfKey (s : String) : ReadingField :=
  if s = "temperature" then .temperature
  else if s = "co2" then .co2
  else .ignore

/-- `visit_seq` of the `Reading` deserializer (`src/co2mon/src/serde_types.rs`
lines 92-103): the first element must be an `f32` (the temperature), the
second a `u16` (the CO₂); missing elements are length errors, wrongly
typed elements are type errors. -/
def readingVisitSeq (l : List SerdeValue) : Except String Reading :=
  match l with
  | [] => .error "invalid length 0"
  | v0 :: rest =>
    match v0 with
    | .f32 t =>
      match rest with
      | [] => .error "invalid length 1"
      | v1 :: _ =>
        match v1 with
        | .u16 c => .ok (Reading.mk t c)
        | _ => .error "invalid type"
    | _ => .error "invalid type"

/-- `visit_map` of the `Reading` deserializer (`src/co2mon/src/serde_types.rs`
lines 106-134): fold over the key-value entries, filling each slot at most
once (duplicates are errors), ignoring unknown keys, and requiring both
fields at the end (temperature checked first). -/
def readingVisitMap : List (String × SerdeValue) → Option ℚ → Option Nat →
    Except String Reading
  | [], t?, c? =>
    match t?, c? with
    | some t, some c => .ok (Reading.mk t c)
    | none, _ => .error "missing field temperature"
    | _, none => .error "missing field co2"
  | (k, v) :: rest, t?, c? =>
    match readingFieldOfKey k with
    | .temperature =>
      if t?.isSome then .error "duplicate field temperature"
      else
        match v with
        | .f32 t => readingVisitMap rest (some t) c?
        | _ => .error "invalid type"
    | .co2 =>
      if c?.isSome then .error "duplicate field co2"
      else
        match v with
        | .u16 c => readingVisitMap rest t? (some c)
        | _ => .error "invalid type"
    | .ignore => readingVisitMap rest t? c?

/-- Shared helper: `decrypt` equals the four spec steps composed in order. -/
theorem decrypt_eq_steps (f k : Frame) :
    decrypt f k = subSpec (rotSpec (xorSpec (swapSpec f) k)) := rfl

/-- C1: for every 8-byte frame and key, `decrypt` is the composition, in
order, of the pair swap, the key XOR, the whole-array right rotation by 3,
and the wrapping subtraction of the nibble-swapped `Htemp99e` mask; and on
the concrete frame `[0x6c,0xa4,0xa2,0xb6,0x5d,0x9a,0x9c,0x08]` with the
all-zero key it yields `[0x50,0x04,0x57,0xab,0x0d,0x00,0x00,0x00]`. -/
theorem c1_decrypt_is_four_steps :
    (∀ f k : Frame, decrypt f k = subSpec (rotSpec (xorSpec (swapSpec f) k))) ∧
    decrypt testFrame zeroKey = ⟨0x50, 0x04, 0x57, 0xab, 0x0d, 0x00, 0x00, 0x00⟩ :=
  ⟨fun f k => decrypt_eq_steps f k, by decide⟩

/-- C2: every 5-byte packet ending in `0x0D` whose byte 3 equals the 8-bit
wrapping sum of bytes 0-2 decodes successfully, to the reading the spec
assigns to the kind byte and the value `(p[1] << 8) | p[2]`: humidity
`value * 0.01` for `0x41`, temperature `value * 0.0625 - 273.15` for
`0x42`, unscaled CO₂ for `0x50`, and `Unknown` with the exact byte and
value otherwise — never an error. -/
theorem c2_decode_valid_packets (p : Packet) (_hv : p.Valid)
    (h4 : p.b4 = 0x0d) (hc : p.b3 = packetChecksum p) :
    decode p = .ok (specReadingOfKind p.b0 (specValue p)) := by
  unfold decode specReadingOfKind specValue
  rw [h4, hc]
  simp only [ne_eq, not_true_eq_false, if_false, ite_not]
  split_ifs <;> rfl

/-- Witness for C2 at the packet `[0x50, 0x04, 0x57, 0xab, 0x0d]`, which
decodes to a CO₂ reading of 1111 ppm. -/
theorem c2_decode_valid_packets_witness :
    decode ⟨0x50, 0x04, 0x57, 0xab, 0x0d⟩ = .ok (.co2 1111) := by
  have h := c2_decode_valid_packets ⟨0x50, 0x04, 0x57, 0xab, 0x0d⟩
    (by decide) (by decide) (by decide)
  rw [h]
  rfl

/-- C3: decoding a 5-byte packet fails with `InvalidMessage` when byte 4 is
not `0x0D`, fails with `Checksum` when byte 4 is `0x0D` but byte 3 differs
from the 8-bit wrapping sum of bytes 0-2, and succeeds in every other
case (no further error case exists). -/
theorem c3_decode_error_cases (p : Packet) :
    (p.b4 ≠ 0x0d → decode p = .error .invalidMessage) ∧
    (p.b4 = 0x0d → packetChecksum p ≠ p.b3 → decode p = .error .checksum) ∧
    (p.b4 = 0x0d → packetChecksum p = p.b3 → ∃ r, decode p = .ok r) := by
  refine ⟨fun h => ?_, fun h4 hc => ?_, fun h4 hc => ?_⟩
  · unfold decode
    simp [h]
  · unfold decode
    simp [h4, hc]
  · unfold decode
    simp only [h4, hc]
    simp only [ne_eq, not_true_eq_false, if_false, ite_not]
    split_ifs <;> exact ⟨_, rfl⟩

/-- Witness for C3 at the packet `[0x42, 0x12, 0x69, 0xbd, 0x00]`, whose
terminator byte is wrong and which therefore fails with `InvalidMessage`. -/
theorem c3_decode_error_cases_witness :
    decode ⟨0x42, 0x12, 0x69, 0xbd, 0x00⟩ = .error .invalidMessage :=
  (c3_decode_error_cases ⟨0x42, 0x12, 0x69, 0xbd, 0x00⟩).1 (by decide)

/-- Helper: `or`-ing a multiple of 32 with a value below 32 is addition. -/
theorem lor32_eq_add (k y : Nat) (hy : y < 32) : 32 * k ||| y = 32 * k + y := by
  have h := Nat.mul_add_lt_is_or (i := 5) (b := y) (by simpa using hy) k
  norm_num at h
  exact h.symm

/-- Helper: arithmetic form of one rotation-step byte. -/
theorem rot_byte_eq (a b : Nat) (hb : b < 256) :
    shl8 a 5 ||| b >>> 3 = 32 * (a % 8) + b / 8 := by
  have h1 : shl8 a 5 = 32 * (a % 8) := by
    unfold shl8
    rw [Nat.shiftLeft_eq]
    norm_num
    omega
  have h2 : b >>> 3 = b / 8 := by
    rw [Nat.shiftRight_eq_div_pow]
  rw [h1, h2, lor32_eq_add _ _ (by omega)]

/-- Helper: XOR of two bytes is a byte. -/
theorem xor8_lt (a b : Nat) (ha : a < 256) (hb : b < 256) : a ^^^ b < 256 := by
  have h := Nat.xor_lt_two_pow (n := 8) (by simpa using ha) (by simpa using hb)
  simpa using h

/-- Helper: the swap step is an involution. -/
theorem swapSpec_invol (f : Frame) : swapSpec (swapSpec f) = f := rfl

/-- Helper: the swap step preserves byte bounds. -/
theorem swapSpec_valid (f : Frame) (hf : f.Valid) : (swapSpec f).Valid := by
  cases f
  simp only [Frame.Valid, swapSpec] at hf ⊢
  omega

/-- Helper: XOR-ing with the same key twice is the identity. -/
theorem xorSpec_cancel (f k : Frame) : xorSpec (xorSpec f k) k = f := by
  cases f; cases k
  simp [xorSpec, Nat.xor_assoc]

/-- Helper: the XOR step preserves byte bounds. -/
theorem xorSpec_valid (f k : Frame) (hf : f.Valid) (hk : k.Valid) :
    (xorSpec f k).Valid := by
  cases f; cases k
  obtain ⟨a0, a1, a2, a3, a4, a5, a6, a7⟩ := hf
  obtain ⟨c0, c1, c2, c3, c4, c5, c6, c7⟩ := hk
  exact ⟨xor8_lt _ _ a0 c0, xor8_lt _ _ a1 c1, xor8_lt _ _ a2 c2,
    xor8_lt _ _ a3 c3, xor8_lt _ _ a4 c4, xor8_lt _ _ a5 c5,
    xor8_lt _ _ a6 c6, xor8_lt _ _ a7 c7⟩

/-- Helper: the rotation step preserves byte bounds. -/
theorem rotSpec_valid (e : Frame) (he : e.Valid) : (rotSpec e).Valid := by
  cases e with
  | mk b0 b1 b2 b3 b4 b5 b6 b7 =>
    simp only [Frame.Valid] at he
    obtain ⟨h0, h1, h2, h3, h4, h5, h6, h7⟩ := he
    simp only [Frame.Valid, rotSpec]
    rw [rot_byte_eq b7 b0 h0, rot_byte_eq b0 b1 h1, rot_byte_eq b1 b2 h2,
      rot_byte_eq b2 b3 h3, rot_byte_eq b3 b4 h4, rot_byte_eq b4 b5 h5,
      rot_byte_eq b5 b6 h6, rot_byte_eq b6 b7 h7]
    omega

/-- Helper: `rotInv` undoes the rotation step on valid frames. -/
theorem rotInv_rotSpec (e : Frame) (he : e.Valid) : rotInv (rotSpec e) = e := by
  cases e with
  | mk b0 b1 b2 b3 b4 b5 b6 b7 =>
    simp only [Frame.Valid] at he
    obtain ⟨h0, h1, h2, h3, h4, h5, h6, h7⟩ := he
    simp only [rotSpec]
    rw [rot_byte_eq b7 b0 h0, rot_byte_eq b0 b1 h1, rot_byte_eq b1 b2 h2,
      rot_byte_eq b2 b3 h3, rot_byte_eq b3 b4 h4, rot_byte_eq b4 b5 h5,
      rot_byte_eq b5 b6 h6, rot_byte_eq b6 b7 h7]
    simp only [rotInv, Frame.mk.injEq]
    omega

/-- Helper: `subInv` undoes the mask-subtraction step on valid frames. -/
theorem subInv_subSpec (r : Frame) (hr : r.Valid) : subInv (subSpec r) = r := by
  have m48 : maskByte 0x48 = 0x84 := by decide
  have m74 : maskByte 0x74 = 0x47 := by decide
  have m65 : maskByte 0x65 = 0x56 := by decide
  have m6d : maskByte 0x6d = 0xd6 := by decide
  have m70 : maskByte 0x70 = 0x07 := by decide
  have m39 : maskByte 0x39 = 0x93 := by decide
  cases r
  simp only [Frame.Valid] at hr
  obtain ⟨h0, h1, h2, h3, h4, h5, h6, h7⟩ := hr
  simp only [subSpec, subInv, wsub8, m48, m74, m65, m6d, m70, m39,
    Frame.mk.injEq]
  omega

/-- Helper: `encrypt` is a left inverse of `decrypt` on valid frames. -/
theorem decrypt_leftInverse (f k : Frame) (hf : f.Valid) (hk : k.Valid) :
    encrypt (decrypt f k) k = f := by
  have hd : (swapSpec f).Valid := swapSpec_valid f hf
  have he : (xorSpec (swapSpec f) k).Valid := xorSpec_valid _ k hd hk
  unfold encrypt
  rw [decrypt_eq_steps, subInv_subSpec _ (rotSpec_valid _ he),
    rotInv_rotSpec _ he, xorSpec_cancel, swapSpec_invol]

/-- C7: for every 8-byte key, decryption is injective on 8-byte frames —
two distinct input frames never decrypt to the same output under the same
key (shown via the explicit inverse `encrypt`, so the map is a bijection of
the finite set of valid frames). -/
theorem c7_decrypt_injective (k f1 f2 : Frame) (hk : k.Valid)
    (h1 : f1.Valid) (h2 : f2.Valid) (heq : decrypt f1 k = decrypt f2 k) :
    f1 = f2 := by
  have e1 := decrypt_leftInverse f1 k h1 hk
  have e2 := decrypt_leftInverse f2 k h2 hk
  rw [← e1, ← e2, heq]

/-- Witness for C7 at the test frame and the all-zero key. -/
theorem c7_decrypt_injective_witness : testFrame = testFrame :=
  c7_decrypt_injective zeroKey testFrame testFrame
    (by decide) (by decide) (by decide) rfl

/-- C5 counterexample: on the test frame (raw byte 4 is `0x5D`, so the
decrypt branch is taken) the packet actually passed to decode differs from
the packet the claim describes — byte 4 is the decrypted frame's byte 4
(`0x0D`), not the raw frame's (`0x5D`). -/
theorem c5_counterexample :
    readOnePacket testFrame zeroKey ≠ claimPacketC5 testFrame zeroKey := by
  decide

/-- C5 (amended): if the raw frame's byte 4 is `0x0D` decryption is
skipped and the packet is the first five bytes of the raw frame; otherwise
the frame is decrypted with the session key and the packet is the first
five bytes of the decrypted frame (byte 4 included — not the raw byte 4). -/
theorem c5_read_one_packet (data key : Frame) :
    (data.b4 = 0x0d →
      readOnePacket data key =
        Packet.mk data.b0 data.b1 data.b2 data.b3 data.b4) ∧
    (data.b4 ≠ 0x0d →
      readOnePacket data key =
        Packet.mk (decrypt data key).b0 (decrypt data key).b1
          (decrypt data key).b2 (decrypt data key).b3 (decrypt data key).b4) := by
  constructor <;> intro h <;> simp [readOnePacket, h]

/-- Witness for C5 (amended) at a cleartext frame. -/
theorem c5_read_one_packet_witness :
    readOnePacket ⟨0x50, 0x04, 0x57, 0xab, 0x0d, 0, 0, 0⟩ zeroKey =
      Packet.mk 0x50 0x04 0x57 0xab 0x0d :=
  (c5_read_one_packet ⟨0x50, 0x04, 0x57, 0xab, 0x0d, 0, 0, 0⟩ zeroKey).1 rfl

/-- C8: a short read (fewer than 8 bytes reported) fails with
`InvalidMessage` regardless of the buffer contents, and a transport error
is propagated unchanged, wrapped as the `Hid` variant. -/
theorem c8_read_one_short_and_hid (key : Frame) :
    (∀ n data, n < 8 → read_one (.ok n data) key = .error .invalidMessage) ∧
    (∀ e, read_one (.err e) key = .error (.hid e)) := by
  constructor
  · intro n data hn
    have h : n ≠ 8 := by omega
    simp [read_one, h]
  · intro e
    rfl

/-- Witness for C8: a 0-byte read fails with `InvalidMessage`. -/
theorem c8_read_one_short_and_hid_witness :
    read_one (.ok 0 testFrame) zeroKey = .error .invalidMessage :=
  (c8_read_one_short_and_hid zeroKey).1 0 testFrame (by decide)

/-- C9: at open time, an unset timeout maps to the transport value `-1`
(block indefinitely); a timeout whose millisecond count fits `i32` maps to
that count; one that does not fit fails with `InvalidTimeout`. Reading
never produces `InvalidTimeout`: neither the accumulation loop nor a
single read can return it. -/
theorem c9_timeout_validation :
    openTimeoutMillis none = .ok (-1) ∧
    (∀ d : Duration, d.asMillis ≤ 2147483647 →
      openTimeoutMillis (some d) = .ok (d.asMillis : Int)) ∧
    (∀ d : Duration, 2147483647 < d.asMillis →
      openTimeoutMillis (some d) = .error .invalidTimeout) ∧
    (∀ timeout t c e s, readAux timeout t c e s ≠ .error .invalidTimeout) ∧
    (∀ tr key, read_one tr key ≠ .error .invalidTimeout) := by
  refine ⟨rfl, fun d h => ?_, fun d h => ?_, fun timeout t c e s => ?_, fun tr key => ?_⟩
  · simp [openTimeoutMillis, h]
  · simp [openTimeoutMillis]
    omega
  · induction s generalizing t c e with
    | nil => simp [readAux]
    | cons item rest ih =>
      simp only [readAux]
      split
      · simp
      · split
        · simp
        · apply ih
  · match tr with
    | .err e => simp [read_one]
    | .ok n data =>
      simp only [read_one]
      split
      · simp
      · split
        · rename_i e heq
          cases e <;> simp [ofZgError]
        · simp

/-- Witness for C9 at a duration of 2147484 seconds, whose millisecond
count exceeds `i32::MAX`. -/
theorem c9_timeout_validation_witness :
    openTimeoutMillis (some ⟨2147484, 0⟩) = .error .invalidTimeout :=
  c9_timeout_validation.2.2.1 ⟨2147484, 0⟩ (by decide)

/-- Helper: `orD` with an empty second operand. -/
theorem orD_none_right {α : Type} (a : Option α) : orD a none = a := by
  cases a <;> rfl

/-- Helper: `orD` with an empty first operand. -/
theorem orD_none_left {α : Type} (b : Option α) : orD none b = b := rfl

/-- Helper: `orD` is associative. -/
theorem orD_assoc {α : Type} (a b c : Option α) :
    orD (orD a b) c = orD a (orD b c) := by
  cases a <;> rfl

/-- Helper: `orD` of a populated first operand is populated. -/
theorem orD_isSome_left {α : Type} {a : Option α} (b : Option α)
    (h : a.isSome = true) : (orD a b).isSome = true := by
  cases a
  · simp at h
  · rfl

/-- Helper: `orD` of a populated second operand is populated. -/
theorem orD_isSome_right {α : Type} (a : Option α) {b : Option α}
    (h : b.isSome = true) : (orD a b).isSome = true := by
  cases a
  · exact h
  · rfl

/-- Helper: the first slot after `updateSlots` prefers the reading. -/
theorem updateSlots_fst (r : SingleReading) (t : Option ℚ) (c : Option Nat) :
    (updateSlots r t c).1 = orD (tempOf r) t := by
  cases r <;> rfl

/-- Helper: the second slot after `updateSlots` prefers the reading. -/
theorem updateSlots_snd (r : SingleReading) (t : Option ℚ) (c : Option Nat) :
    (updateSlots r t c).2 = orD (co2Of r) c := by
  cases r <;> rfl

/-- Helper: `readings` distributes over cons. -/
theorem readings_cons (i : ScriptItem) (s : List ScriptItem) :
    readings (i :: s) = i.reading :: readings s := rfl

/-- Helper: `isOk` of a success. -/
theorem isOk_ok {ε α : Type} (a : α) : (Except.ok a : Except ε α).isOk = true := rfl

/-- Helper: `isOk` of a failure. -/
theorem isOk_error {ε α : Type} (e : ε) :
    (Except.error e : Except ε α).isOk = false := rfl

/-- Helper: with no deadline, the loop started from slots that are not yet
both populated succeeds exactly when, after folding the whole script over
the slots, both are populated — i.e. when each missing kind occurs in the
script. -/
theorem readAux_isOk_eq (script : List ScriptItem) :
    ∀ (t : Option ℚ) (c : Option Nat) (e : Nat),
      ¬(t.isSome = true ∧ c.isSome = true) →
      (readAux (-1) t c e script).isOk =
        ((orD (lastTemp (readings script)) t).isSome &&
          (orD (lastCO2 (readings script)) c).isSome) := by
  induction script with
  | nil =>
    intro t c e h
    simp only [readAux, readings, List.map_nil, lastTemp, lastCO2,
      orD_none_left, isOk_error]
    cases t <;> cases c <;> simp_all
  | cons item rest ih =>
    intro t c e h
    simp only [readAux, updateSlots_fst, updateSlots_snd, readings_cons,
      lastTemp, lastCO2, orD_assoc]
    cases hT : orD (tempOf item.reading) t with
    | some tv =>
      cases hC : orD (co2Of item.reading) c with
      | some cv => simp [isOk_ok, orD_isSome_right]
      | none =>
        simp only [ne_eq, not_true_eq_false, false_and, if_false]
        rw [ih (some tv) none _ (by simp)]
        rfl
    | none =>
      cases hC : orD (co2Of item.reading) c with
      | some cv =>
        simp only [ne_eq, not_true_eq_false, false_and, if_false]
        rw [ih none (some cv) _ (by simp)]
        rfl
      | none =>
        simp only [ne_eq, not_true_eq_false, false_and, if_false]
        rw [ih none none _ (by simp)]
        rfl

/-- Helper: with no deadline, when the loop started from slots that are
not yet both populated returns a pair, there is a first iteration boundary
`k` at which both kinds have been seen, and the returned pair carries the
most recent value of each kind within that prefix. -/
theorem readAux_ok_spec (script : List ScriptItem) :
    ∀ (timeout : Int) (t : Option ℚ) (c : Option Nat) (e : Nat)
      (tv : ℚ) (cv : Nat),
      ¬(t.isSome = true ∧ c.isSome = true) →
      readAux timeout t c e script = .ok (tv, cv) →
      ∃ k, 0 < k ∧ k ≤ script.length ∧
        orD (lastTemp (readings (script.take k))) t = some tv ∧
        orD (lastCO2 (readings (script.take k))) c = some cv ∧
        ∀ j < k,
          ¬((orD (lastTemp (readings (script.take j))) t).isSome = true ∧
            (orD (lastCO2 (readings (script.take j))) c).isSome = true) := by
  induction script with
  | nil =>
    intro timeout t c e tv cv h hok
    simp [readAux] at hok
  | cons item rest ih =>
    intro timeout t c e tv cv h hok
    simp only [readAux, updateSlots_fst, updateSlots_snd] at hok
    cases hT : orD (tempOf item.reading) t with
    | some tv2 =>
      cases hC : orD (co2Of item.reading) c with
      | some cv2 =>
        rw [hT, hC] at hok
        simp only [Except.ok.injEq, Prod.mk.injEq] at hok
        obtain ⟨rfl, rfl⟩ := hok
        refine ⟨1, Nat.one_pos, by simp, ?_, ?_, ?_⟩
        · simp only [List.take_succ_cons, List.take_zero, readings_cons,
            readings, List.map_nil, lastTemp, orD_none_left]
          exact hT
        · simp only [List.take_succ_cons, List.take_zero, readings_cons,
            readings, List.map_nil, lastCO2, orD_none_left]
          exact hC
        · intro j hj
          have hj0 : j = 0 := by omega
          subst hj0
          simp only [List.take_zero, readings, List.map_nil, lastTemp,
            lastCO2, orD_none_left]
          exact h
      | none =>
        rw [hT, hC] at hok
        rw [ite_eq_iff] at hok
        rcases hok with ⟨hcond, habs⟩ | ⟨hcond, hok⟩
        · exact absurd habs (by simp)
        obtain ⟨k, hk0, hklen, hTk, hCk, hmin⟩ :=
          ih timeout (some tv2) none _ tv cv (by simp) hok
        refine ⟨k + 1, by omega, by simp only [List.length_cons]; omega,
          ?_, ?_, ?_⟩
        · simp only [List.take_succ_cons, readings_cons, lastTemp,
            orD_assoc, hT]
          exact hTk
        · simp only [List.take_succ_cons, readings_cons, lastCO2,
            orD_assoc, hC]
          exact hCk
        · intro j hj
          cases j with
          | zero =>
            simp only [List.take_zero, readings, List.map_nil, lastTemp,
              lastCO2, orD_none_left]
            exact h
          | succ j2 =>
            simp only [List.take_succ_cons, readings_cons, lastTemp,
              lastCO2, orD_assoc, hT, hC]
            exact hmin j2 (by omega)
    | none =>
      cases hC : orD (co2Of item.reading) c with
      | some cv2 =>
        rw [hT, hC] at hok
        rw [ite_eq_iff] at hok
        rcases hok with ⟨hcond, habs⟩ | ⟨hcond, hok⟩
        · exact absurd habs (by simp)
        obtain ⟨k, hk0, hklen, hTk, hCk, hmin⟩ :=
          ih timeout none (some cv2) _ tv cv (by simp) hok
        refine ⟨k + 1, by omega, by simp only [List.length_cons]; omega,
          ?_, ?_, ?_⟩
        · simp only [List.take_succ_cons, readings_cons, lastTemp,
            orD_assoc, hT]
          exact hTk
        · simp only [List.take_succ_cons, readings_cons, lastCO2,
            orD_assoc, hC]
          exact hCk
        · intro j hj
          cases j with
          | zero =>
            simp only [List.take_zero, readings, List.map_nil, lastTemp,
              lastCO2, orD_none_left]
            exact h
          | succ j2 =>
            simp only [List.take_succ_cons, readings_cons, lastTemp,
              lastCO2, orD_assoc, hT, hC]
            exact hmin j2 (by omega)
      | none =>
        rw [hT, hC] at hok
        rw [ite_eq_iff] at hok
        rcases hok with ⟨hcond, habs⟩ | ⟨hcond, hok⟩
        · exact absurd habs (by simp)
        obtain ⟨k, hk0, hklen, hTk, hCk, hmin⟩ :=
          ih timeout none none _ tv cv (by simp) hok
        refine ⟨k + 1, by omega, by simp only [List.length_cons]; omega,
          ?_, ?_, ?_⟩
        · simp only [List.take_succ_cons, readings_cons, lastTemp,
            orD_assoc, hT]
          exact hTk
        · simp only [List.take_succ_cons, readings_cons, lastCO2,
            orD_assoc, hC]
          exact hCk
        · intro j hj
          cases j with
          | zero =>
            simp only [List.take_zero, readings, List.map_nil, lastTemp,
              lastCO2, orD_none_left]
            exact h
          | succ j2 =>
            simp only [List.take_succ_cons, readings_cons, lastTemp,
              lastCO2, orD_assoc, hT, hC]
            exact hmin j2 (by omega)

/-- C4: with no deadline, the accumulation loop over a scripted sequence
of single readings succeeds exactly when the script contains both a
`Temperature` and a `CO2` reading; and, for every configured timeout, a
successful return happens at the first iteration boundary at which both
kinds have been observed, carrying for each kind the value of its most
recent reading within that prefix (last write wins) — readings of any
other kind are discarded without terminating the loop. -/
theorem c4_read_accumulation (script : List ScriptItem) :
    ((readCombined (-1) script).isOk = true ↔ bothSeen (readings script)) ∧
    (∀ timeout tv cv, readCombined timeout script = .ok (tv, cv) →
      ∃ k, 0 < k ∧ k ≤ script.length ∧
        bothSeen (readings (script.take k)) ∧
        (∀ j < k, ¬ bothSeen (readings (script.take j))) ∧
        lastTemp (readings (script.take k)) = some tv ∧
        lastCO2 (readings (script.take k)) = some cv) := by
  constructor
  · have hA := readAux_isOk_eq script none none 0 (by simp)
    rw [orD_none_right, orD_none_right] at hA
    unfold readCombined
    rw [hA]
    unfold bothSeen
    rw [Bool.and_eq_true]
  · intro timeout tv cv hok
    obtain ⟨k, hk0, hklen, hTk, hCk, hmin⟩ :=
      readAux_ok_spec script timeout none none 0 tv cv (by simp) hok
    rw [orD_none_right] at hTk
    rw [orD_none_right] at hCk
    refine ⟨k, hk0, hklen, ⟨by rw [hTk]; rfl, by rw [hCk]; rfl⟩, ?_, hTk, hCk⟩
    intro j hj
    have := hmin j hj
    rw [orD_none_right, orD_none_right] at this
    exact this

/-- Witness for C4 at a script delivering a temperature, an unknown
reading and a CO₂ value: the combined read succeeds. -/
theorem c4_read_accumulation_witness :
    (readCombined (-1) [⟨100, .temperature 21⟩, ⟨50, .unknown 82 10⟩,
      ⟨25, .co2 600⟩]).isOk = true :=
  (c4_read_accumulation
    [⟨100, .temperature 21⟩, ⟨50, .unknown 82 10⟩, ⟨25, .co2 600⟩]).1.mpr
    (by decide)

/-- C6 counterexample: with a configured timeout of 5000 ms and a script
whose first reading (a humidity value, which completes nothing) takes
1000 ms, the second transport read is issued with a timeout of 5000 ms,
not with the remaining budget 5000 - 1000 = 4000 ms: the claim's equation
`timeout passed = configured timeout - elapsed` fails on this run. -/
theorem c6_counterexample :
    ¬(∀ p ∈ readTimeouts 5000 none none 0
        [⟨1000, .humidity (1 / 2)⟩, ⟨1000, .temperature 21⟩],
      p.2 = 5000 - (p.1 : Int)) := by
  decide

/-- C6 (amended): every transport read issued by the accumulation loop is
passed the full configured timeout (`self.timeout`), regardless of the
time already elapsed. -/
theorem c6_read_timeout_constant (timeout : Int) (t : Option ℚ)
    (c : Option Nat) (e : Nat) (s : List ScriptItem) :
    ∀ p ∈ readTimeouts timeout t c e s, p.2 = timeout := by
  induction s generalizing t c e with
  | nil =>
    intro p hp
    simp [readTimeouts] at hp
  | cons item rest ih =>
    intro p hp
    simp only [readTimeouts] at hp
    rcases List.mem_cons.mp hp with hhead | htail
    · rw [hhead]
    · split at htail
      · exact absurd htail (List.not_mem_nil p)
      · split at htail
        · exact absurd htail (List.not_mem_nil p)
        · exact ih _ _ _ p htail

/-- Witness for C6 (amended): on a one-item script, the single read issued
is passed the configured timeout. -/
theorem c6_read_timeout_constant_witness :
    ((0 : Nat), (5000 : Int)).2 = 5000 :=
  c6_read_timeout_constant 5000 none none 0 [⟨1, .co2 1⟩] (0, 5000)
    (by decide)

/-- C10: serializing a combined reading yields exactly the 2-field record
`temperature` (the `f32` payload) then `co2` (the `u16` payload), in that
order; and deserialization is a left inverse of serialization, whether the
serialized form is presented as a 2-element sequence or as a map keyed by
the field names. -/
theorem c10_reading_serde_roundtrip (r : Reading) :
    serializeReading r =
      [("temperature", .f32 r.temperature), ("co2", .u16 r.co2)] ∧
    readingVisitSeq ((serializeReading r).map Prod.snd) = .ok r ∧
    readingVisitMap (serializeReading r) none none = .ok r :=
  ⟨rfl, rfl, rfl⟩
